import Mathlib

/-!
Shallow embedding of the mf-api moving-features server
(`pygeoapi/api.py`, `pygeoapi/models/process_data.py`) and proofs about its
parameter validators, MF-JSON dialect converters, temporal-property conflict
gate, pagination counters and link assembly.

Modelling conventions:
* Python `datetime.datetime` values are the record `PyDateTime`; aware
  datetimes carry a UTC offset in minutes (`tz = some off`), naive ones carry
  `tz = none`.  Ordering of aware datetimes follows CPython: comparison of the
  absolute instant (proleptic Gregorian microsecond count minus the offset).
* `dateutil.parser.parse(s, default=d)` is an abstract oracle of type
  `DateParser`; `none` models a raised `ParserError`.  Theorems quantify over
  the oracle, witnesses instantiate it with a small table-driven parser.
* Raising `ValueError` is modelled by `Except.error msg`.
* The SQL that the data-access layer interpolates into strings is modelled by
  the documented semantics of the backing store: `LIMIT n OFFSET m` is
  drop-then-take on the selected row list, `period(x) && period(y)` is closed
  interval overlap, `period(timestampset S)` is the span `[min S, max S]`,
  and a stored `tproperties` row is abstracted to the key columns plus the
  periods of its two value columns, which is all the modelled queries read.
-/

/-- Python `datetime.datetime`: `tz` is the UTC offset in minutes of the
attached tzinfo, `none` for a naive value (`pytz.UTC` is `some 0`). -/
structure PyDateTime where
  year : Nat
  month : Nat
  day : Nat
  hour : Nat
  minute : Nat
  second : Nat
  micro : Nat
  tz : Option Int
deriving DecidableEq, Repr

/-- Leap-year test of the proleptic Gregorian calendar. -/
def isLeap (y : Nat) : Bool :=
  y % 4 == 0 && (y % 100 != 0 || y % 400 == 0)

/-- Days in the months before month `m` (1-based) of a common year. -/
def daysBeforeMonth (m : Nat) : Nat :=
  match m with
  | 1 => 0 | 2 => 31 | 3 => 59 | 4 => 90 | 5 => 120 | 6 => 151
  | 7 => 181 | 8 => 212 | 9 => 243 | 10 => 273 | 11 => 304 | _ => 334

/-- Proleptic Gregorian ordinal of a date, as in `datetime.date.toordinal`
(0001-01-01 has ordinal 1). -/
def PyDateTime.toOrdinal (dt : PyDateTime) : Nat :=
  let n := dt.year - 1
  365 * n + n / 4 - n / 100 + n / 400
    + daysBeforeMonth dt.month
    + (if isLeap dt.year && decide (dt.month > 2) then 1 else 0)
    + dt.day

/-- Microseconds of the naive clock reading since the calendar origin. -/
def PyDateTime.toNaiveMicros (dt : PyDateTime) : Nat :=
  (((dt.toOrdinal * 24 + dt.hour) * 60 + dt.minute) * 60 + dt.second) * 1000000
    + dt.micro

/-- Absolute instant of an aware datetime (naive values are read with offset
0; the modelled code only compares datetimes after stamping them UTC). -/
def PyDateTime.toInstant (dt : PyDateTime) : Int :=
  (dt.toNaiveMicros : Int) - (dt.tz.getD 0) * 60 * 1000000

/-- `x.replace(tzinfo=pytz.UTC) if x.tzinfo is None else x`: attach UTC to a
naive datetime without changing the clock fields. -/
def stampUTC (dt : PyDateTime) : PyDateTime :=
  if dt.tz = none then { dt with tz := some 0 } else dt

/-- Zero-pad the decimal form of `n` to width `w`. -/
def padNum (w : Nat) (n : Nat) : String :=
  let s := toString n
  String.mk (List.replicate (w - s.length) '0') ++ s

/-- `strftime('%Y-%m-%d %H:%M:%S.%f')` on a datetime (4-digit zero-padded
year; the tzinfo is not rendered by this format string). -/
def pyFmt (dt : PyDateTime) : String :=
  padNum 4 dt.year ++ "-" ++ padNum 2 dt.month ++ "-" ++ padNum 2 dt.day
    ++ " " ++ padNum 2 dt.hour ++ ":" ++ padNum 2 dt.minute
    ++ ":" ++ padNum 2 dt.second ++ "." ++ padNum 6 dt.micro

/-- `datetime.min` = 0001-01-01T00:00:00, naive. -/
def pyDatetimeMin : PyDateTime := ⟨1, 1, 1, 0, 0, 0, 0, none⟩

/-- `datetime.max` = 9999-12-31T23:59:59.999999, naive. -/
def pyDatetimeMax : PyDateTime := ⟨9999, 12, 31, 23, 59, 59, 999999, none⟩

/-- `datetime(1970, 1, 1, 0, 0, 0)`, the default for single instants. -/
def unixEpoch : PyDateTime := ⟨1970, 1, 1, 0, 0, 0, 0, none⟩

/-- `datetime(1, 1, 1, 0, 0, 0).replace(tzinfo=pytz.UTC)`: what a `..` begin
bound is mapped to. -/
def pyDatetimeMinUTC : PyDateTime := ⟨1, 1, 1, 0, 0, 0, 0, some 0⟩

/-- `datetime(9999, 1, 1, 0, 0, 0).replace(tzinfo=pytz.UTC)`: what a `..` end
bound is mapped to. -/
def pyDatetime9999UTC : PyDateTime := ⟨9999, 1, 1, 0, 0, 0, 0, some 0⟩

/-- The abstract `dateutil.parser.parse` oracle: argument 2 is the `default`
datetime supplying missing fields; `none` models a parse error. -/
def DateParser : Type := String → PyDateTime → Option PyDateTime

/-! String helpers mirroring the Python string operations used by the code. -/

/-- `str.split(sep)` for a single-character separator, on char lists. -/
def splitCharList (c : Char) : List Char → List (List Char)
  | [] => [[]]
  | x :: xs =>
    if x = c then [] :: splitCharList c xs
    else
      match splitCharList c xs with
      | ys :: rest => (x :: ys) :: rest
      | [] => [[x]]

/-- `str.split(sep)` for a single-character separator. -/
def splitOnChar (c : Char) (s : String) : List String :=
  (splitCharList c s.data).map String.mk

/-- Python `c in s` for a single character. -/
def hasChar (c : Char) (s : String) : Bool :=
  s.data.any (fun x => x == c)

/-- `s.replace('Z', '')`: drop every occurrence of `Z`. -/
def removeZ (s : String) : String :=
  String.mk (s.data.filter (fun c => c != 'Z'))

/-- `s.split('+')[0] + 'Z'`: the prefix before the first `+`, with `Z`
appended. -/
def restoreZ (s : String) : String :=
  String.mk ((s.data.takeWhile (fun c => c != '+')) ++ ['Z'])

/-- `True` exactly when the char list is a timestamp in canonical wire form:
it ends in `Z` and contains no other `Z` and no `+`. -/
def endsWithSoleZ : List Char → Bool
  | [] => false
  | [c] => c == 'Z'
  | c :: rest => c != 'Z' && c != '+' && endsWithSoleZ rest

/-- `"," + y` for every element, concatenated: the tail of a comma join. -/
def joinTail : List String → String
  | [] => ""
  | y :: rest => "," ++ y ++ joinTail rest

/-- Join strings with commas (`",".join` after the first element). -/
def commaJoin (xs : List String) : String :=
  match xs with
  | [] => ""
  | x :: rest => x ++ joinTail rest

/-- Run `f` over the list, stopping at the first failure, as a Python list
comprehension over a raising function does. -/
def optMapM {α : Type} (f : String → Option α) : List String → Option (List α)
  | [] => some []
  | x :: xs =>
    match f x, optMapM f xs with
    | some y, some ys => some (y :: ys)
    | _, _ => none

/-! ### `validate_bbox` (`pygeoapi/api.py`)

The value of `float(c)` is modelled by `PyFloat α`: either an ordered
numeric value (floats other than NaN, infinities included, are totally
ordered; the carrier `α` is abstract) or `nan`, which `float('nan')`
produces and whose every comparison is false.  The parsing oracle
`parseNum` returns `none` for the `ValueError` raised by `float`. -/

/-- A Python float as `validate_bbox` compares them: an ordered numeric
value, or NaN, for which `<`, `>` and `≤` are all false. -/
inductive PyFloat (α : Type) where
  | num (x : α)
  | nan
deriving DecidableEq, Repr

/-- Python `a > b` on floats: false whenever either side is NaN. -/
def pyGt {α : Type} [LinearOrder α] : PyFloat α → PyFloat α → Bool
  | .num x, .num y => decide (y < x)
  | _, _ => false

/-- Python `a <= b` on floats: false whenever either side is NaN. -/
def pyLe {α : Type} [LinearOrder α] : PyFloat α → PyFloat α → Bool
  | .num x, .num y => decide (x ≤ y)
  | _, _ => false

/-- `validate_bbox`: split on commas, demand 4 or 6 parts, parse each part as
a number, then run the `min > max` guards in the order of checks of the
source; a guard involving NaN is false and does not reject. -/
def validate_bbox {α : Type} [LinearOrder α]
    (parseNum : String → Option (PyFloat α)) (value : Option String) :
    Except String (List (PyFloat α)) :=
  match value with
  | none => .ok []
  | some v =>
    let parts := splitOnChar ',' v
    if parts.length ≠ 4 ∧ parts.length ≠ 6 then
      .error "bbox should be 4 values (minx,miny,maxx,maxy) or 6 values (minx,miny,minz,maxx,maxy,maxz)"
    else
      match optMapM parseNum parts with
      | none => .error "bbox values must be numbers"
      | some bbox =>
        match bbox with
        | [x0, x1, x2, x3] =>
          if pyGt x1 x3 then .error "miny should be less than maxy"
          else if pyGt x0 x2 then .error "minx is greater than maxx (possibly antimeridian bbox)"
          else .ok [x0, x1, x2, x3]
        | [x0, x1, x2, x3, x4, x5] =>
          if pyGt x2 x5 then .error "minz should be less than maxz"
          else if pyGt x1 x4 then .error "miny should be less than maxy"
          else if pyGt x0 x3 then .error "minx is greater than maxx (possibly antimeridian bbox)"
          else .ok [x0, x1, x2, x3, x4, x5]
        | other => .ok other

/-- The bboxes the source's guards accept: no `min > max` comparison of a
4- or 6-element bbox evaluates true; `false` for any other length.  A NaN
in any compared position makes its guard false, so the bbox passes. -/
def bboxPassesChecks {α : Type} [LinearOrder α] : List (PyFloat α) → Bool
  | [x0, x1, x2, x3] => !(pyGt x1 x3) && !(pyGt x0 x2)
  | [x0, x1, x2, x3, x4, x5] => !(pyGt x2 x5) && !(pyGt x1 x4) && !(pyGt x0 x3)
  | _ => false

/-- The claimed componentwise discipline: each minimum `≤` the matching
maximum of a 4- or 6-element bbox, under Python float comparison. -/
def bboxOrderedLe {α : Type} [LinearOrder α] : List (PyFloat α) → Bool
  | [x0, x1, x2, x3] => pyLe x0 x2 && pyLe x1 x3
  | [x0, x1, x2, x3, x4, x5] => pyLe x0 x3 && pyLe x1 x4 && pyLe x2 x5
  | _ => false

/-- True when no element of the list is NaN. -/
def noNan {α : Type} : List (PyFloat α) → Bool := fun xs =>
  xs.all (fun x => match x with | .num _ => true | .nan => false)

/-! ### `validate_datetime` (`pygeoapi/api.py`) -/

/-- `re.sub(r'^/', '../', s)` then `re.sub(r'/$', '/..', s)`: normalize an
empty leading side to `..` and an empty trailing side to `..`. -/
def normalizeDatetimeParam (s : String) : String :=
  let s := match s.data with
    | '/' :: _ => ".." ++ s
    | _ => s
  match s.data.reverse with
  | '/' :: _ => s ++ ".."
  | _ => s

/-- Resolution of the begin side of a range: `..` becomes
0001-01-01T00:00:00 UTC (`datetime.min` stamped UTC); any other side is
parsed with `datetime.min` as the default and stamped UTC when naive. -/
def resolveRangeBegin (parse : DateParser) (side : String) : Option PyDateTime :=
  if side = ".." then some pyDatetimeMinUTC
  else (parse side pyDatetimeMin).map stampUTC

/-- Resolution of the end side of a range: `..` becomes
9999-01-01T00:00:00 UTC; any other side is parsed with `datetime.max` as the
default and stamped UTC when naive. -/
def resolveRangeEnd (parse : DateParser) (side : String) : Option PyDateTime :=
  if side = ".." then some pyDatetime9999UTC
  else (parse side pyDatetimeMax).map stampUTC

/-- `validate_datetime`.  A `None` or empty parameter is passed through.  A
parameter containing `/` is normalized, unpacked into exactly two sides
(three or more raise at the tuple unpacking), resolved, rejected when begin
is after end, and rendered as `fmt(begin),fmt(end)`.  A single instant is
parsed with the epoch default, stamped UTC, and rendered duplicated; the
`datetime__ == '..'` guard of the source compares a datetime against a string
and never holds, so this branch raises only on a parse failure. -/
def validate_datetime (parse : DateParser) (datetime? : Option String) :
    Except String (Option String) :=
  match datetime? with
  | none => .ok none
  | some s =>
    if s = "" then .ok (some s)
    else if hasChar '/' s then
      match splitOnChar '/' (normalizeDatetimeParam s) with
      | [b, e] =>
        match resolveRangeBegin parse b, resolveRangeEnd parse e with
        | some db, some de =>
          if de.toInstant < db.toInstant then
            .error "datetime parameter out of range"
          else .ok (some (pyFmt db ++ "," ++ pyFmt de))
        | _, _ => .error "datetime side does not parse"
      | _ => .error "too many values to unpack"
    else
      match parse s unixEpoch with
      | none => .error "datetime does not parse"
      | some d =>
        let d := stampUTC d
        .ok (some (pyFmt d ++ "," ++ pyFmt d))

/-! ### `validate_leaf` (`pygeoapi/api.py`) -/

/-- Order in which `validate_leaf` compares adjacent instants: the absolute
instants after stamping naive values UTC. -/
def leafLt (a b : PyDateTime) : Prop :=
  (stampUTC a).toInstant < (stampUTC b).toInstant

instance : DecidableRel leafLt := fun a b =>
  inferInstanceAs (Decidable ((stampUTC a).toInstant < (stampUTC b).toInstant))

/-- The loop of `validate_leaf`: for each index from 1 on, re-parse the
previous element and parse the current one, stamp both UTC when naive, fail
when the pair is not strictly increasing, and append `,fmt(current)`. -/
def leafLoop (parse : DateParser) : String → List String → String → Except String String
  | _, [], acc => .ok acc
  | prev, cur :: rest, acc =>
    match parse prev unixEpoch, parse cur unixEpoch with
    | some dPre, some dCur =>
      if (stampUTC dCur).toInstant ≤ (stampUTC dPre).toInstant then
        .error "invalid leaf"
      else leafLoop parse cur rest (acc ++ "," ++ pyFmt (stampUTC dCur))
    | _, _ => .error "leaf does not parse"

/-- `validate_leaf`: split on commas, format the first instant, then run the
pairwise loop; `None` is passed through. -/
def validate_leaf (parse : DateParser) (leaf? : Option String) :
    Except String (Option String) :=
  match leaf? with
  | none => .ok none
  | some l =>
    match splitOnChar ',' l with
    | [] => .ok (some "")
    | first :: rest =>
      match parse first unixEpoch with
      | none => .error "leaf does not parse"
      | some d0 =>
        match leafLoop parse first rest (pyFmt d0) with
        | .error msg => .error msg
        | .ok out => .ok (some out)

/-! ### MF-JSON dialect converters (`pygeoapi/models/process_data.py`)

A temporal geometry object is abstracted to the keys the two converters
touch; `none` plays the role of an absent key.  All other keys (here
represented by `coordinates`) pass through both converters unchanged. -/

/-- The keys of a temporal geometry read or written by the converters. -/
structure TGeo where
  type : Option String
  interpolation : Option String
  interpolations : Option (List String)
  datetimes : Option (List String)
  lower_inc : Option Bool
  upper_inc : Option Bool
  coordinates : List (List Int)
deriving DecidableEq, Repr

/-- `convertTemporalGeometryToNewVersion`: move `interpolation` (with `Step`
renamed `Stepwise`) into a one-element `interpolations`, rename type
`MovingPoint` to `MovingGeomPoint`, drop every `Z` from the datetimes, and
default `lower_inc` / `upper_inc` to true. -/
def convertTemporalGeometryToNewVersion (tg : TGeo) : TGeo :=
  let tg := match tg.interpolation with
    | some i =>
      let i := if i = "Step" then "Stepwise" else i
      { tg with interpolations := some [i], interpolation := none }
    | none => tg
  let tg := match tg.type with
    | some t => if t = "MovingPoint" then { tg with type := some "MovingGeomPoint" } else tg
    | none => tg
  let tg := match tg.datetimes with
    | some ds => { tg with datetimes := some (ds.map removeZ) }
    | none => tg
  let tg := if tg.lower_inc = none then { tg with lower_inc := some true } else tg
  if tg.upper_inc = none then { tg with upper_inc := some true } else tg

/-- `convertTemporalGeometryToOldVersion`: head of `interpolations` (empty
raises) becomes `interpolation` with `Stepwise` renamed `Step`, type
`MovingGeomPoint` becomes `MovingPoint` (the key must be present or the
lookup raises), datetimes get their prefix before any `+` suffixed with `Z`,
and `lower_inc` / `upper_inc` are deleted.  `none` models a raised
`KeyError` / `IndexError`. -/
def convertTemporalGeometryToOldVersion (tg : TGeo) : Option TGeo :=
  let step1 : Option TGeo :=
    match tg.interpolations with
    | some [] => none
    | some (i :: _) =>
      let i := if i = "Stepwise" then "Step" else i
      some { tg with interpolation := some i, interpolations := none }
    | none => some tg
  match step1 with
  | none => none
  | some tg =>
    match tg.type with
    | none => none
    | some t =>
      let tg := if t = "MovingGeomPoint" then { tg with type := some "MovingPoint" } else tg
      let tg := match tg.datetimes with
        | some ds => { tg with datetimes := some (ds.map restoreZ) }
        | none => tg
      some { tg with lower_inc := none, upper_inc := none }

/-! ### Controller parameter stages (`pygeoapi/api.py`)

The two list controllers are modelled from the point where the `leaf`
parameter is processed; the preceding offset / limit / bbox stages are
assumed passed, which is the premise of the claim about them.  Reaching the
`query` outcome is what invokes the store. -/

/-- Outcome of a controller parameter stage: an error response, or a query
dispatched to the store with the validated parameters. -/
inductive CtrlOutcome where
  | reject (status : Nat) (code : String) (msg : String)
  | query (leaf : Option String) (subParam : Option String) (datetime : Option String)
deriving DecidableEq, Repr

/-- `subTrajectory == True or subTrajectory == 'true'` after the
`None ↦ False` defaulting: over HTTP the parameter is a string, so only the
literal string `true` passes. -/
def subParamIsTrue (p : Option String) : Bool :=
  p == some "true"

/-- `leaf_ != '' and leaf_ is not None` on the validated leaf. -/
def leafNonEmpty (leaf : Option String) : Bool :=
  match leaf with
  | some s => s != ""
  | none => false

/-- `get_collection_items_tGeometry` from the leaf stage on: validate leaf,
reject a non-empty leaf combined with `subTrajectory=true`, validate
datetime, then query the store. -/
def get_collection_items_tGeometry_paramStage (parse : DateParser)
    (leafParam subTrajectoryParam datetimeParam : Option String) : CtrlOutcome :=
  match validate_leaf parse leafParam with
  | .error msg => .reject 400 "InvalidParameterValue" msg
  | .ok leaf_ =>
    if leafNonEmpty leaf_ && subParamIsTrue subTrajectoryParam then
      .reject 400 "InvalidParameterValue"
        "Cannot use both parameter `subTrajectory` and `leaf` at the same time"
    else
      match validate_datetime parse datetimeParam with
      | .error msg => .reject 400 "InvalidParameterValue" msg
      | .ok dt => .query leaf_ subTrajectoryParam dt

/-- `get_collection_items_tProperty_value` from the leaf stage on: same
shape with `subTemporalValue` in place of `subTrajectory`. -/
def get_collection_items_tProperty_value_paramStage (parse : DateParser)
    (leafParam subTemporalValueParam datetimeParam : Option String) : CtrlOutcome :=
  match validate_leaf parse leafParam with
  | .error msg => .reject 400 "InvalidParameterValue" msg
  | .ok leaf_ =>
    if leafNonEmpty leaf_ && subParamIsTrue subTemporalValueParam then
      .reject 400 "InvalidParameterValue"
        "Cannot use both parameter `subTemporalValue` and `leaf` at the same time"
    else
      match validate_datetime parse datetimeParam with
      | .error msg => .reject 400 "InvalidParameterValue" msg
      | .ok dt => .query leaf_ subTemporalValueParam dt

/-! ### Temporal-property conflict gate (`process_data.py`)

Timestamps are modelled as absolute instants (`Int`).  A stored
`tproperties` row is abstracted to its key columns and the periods of its
`pvalue_float` / `pvalue_text` columns (`none` = SQL NULL column, whose
period is NULL and never overlaps); `datetime_group` is always written
non-NULL, so `count(datetime_group) > 0` is row existence. -/

/-- A row of the `tproperties` table, restricted to what the conflict query
reads. -/
structure TPropRow where
  collection_id : String
  mfeature_id : String
  tproperties_name : String
  pvalue_float_period : Option (Int × Int)
  pvalue_text_period : Option (Int × Int)
deriving DecidableEq, Repr

/-- MobilityDB `period(x) && period(timestampset(S))`: closed-interval
overlap, never true on a NULL column. -/
def periodOverlap (p : Option (Int × Int)) (q : Int × Int) : Bool :=
  match p with
  | none => false
  | some (lo, hi) => decide (lo ≤ q.2) && decide (q.1 ≤ hi)

/-- `period(timestampset(S))`: the closed span from the least to the
greatest submitted instant (the store raises on an empty set; callers pass a
non-empty list). -/
def spanOfTimestamps (ts : List Int) : Int × Int :=
  match ts with
  | [] => (0, 0)
  | t :: rest => (rest.foldl min t, rest.foldl max t)

/-- One entry of the submitted `temporalProperties` array: the optional
`datetimes` key and the remaining keys of the object. -/
structure TPropEntry where
  datetimes : Option (List Int)
  otherKeys : List String
deriving DecidableEq, Repr

/-- Keys iterated when no property name is given; the source does not remove
`datetimes` before iterating, so it is offered as a property name too. -/
def entryKeys (e : TPropEntry) : List String :=
  (if e.datetimes.isSome then ["datetimes"] else []) ++ e.otherKeys

/-- The WHERE clause of the conflict query for one stored row: key columns
match, the name is among the targeted names, and either value period
overlaps the span of the submitted timestamps. -/
def rowConflicts (cid mid : String) (names : List String) (span : Int × Int)
    (r : TPropRow) : Bool :=
  r.collection_id == cid && r.mfeature_id == mid
    && names.contains r.tproperties_name
    && (periodOverlap r.pvalue_float_period span
        || periodOverlap r.pvalue_text_period span)

/-- `checkIfTemporalPropertyCanPost`: entries without a `datetimes` key are
skipped without touching the store; otherwise the conflict query runs and
any returned group count (= any matching row) yields `False`. -/
def checkIfTemporalPropertyCanPost (table : List TPropRow) (cid mid : String)
    (entries : List TPropEntry) (tname? : Option String) : Bool :=
  match entries with
  | [] => true
  | e :: rest =>
    match e.datetimes with
    | none => checkIfTemporalPropertyCanPost table cid mid rest tname?
    | some ds =>
      let names := match tname? with
        | some n => [n]
        | none => entryKeys e
      let conflicting := table.filter (rowConflicts cid mid names (spanOfTimestamps ds))
      if conflicting.length > 0 then false
      else checkIfTemporalPropertyCanPost table cid mid rest tname?

/-- The body of a POSTed temporal-property value: its timestamp list and
whether all values are numeric (`createTemporalPropertyValue` types the
sequence `MovingFloat` exactly then). -/
structure TPropValueData where
  datetimes : List Int
  isFloat : Bool
deriving DecidableEq, Repr

/-- `postTemporalValue`: insert one `tproperties` row whose typed value
column holds a sequence spanning the submitted timestamps. -/
def postTemporalValue (table : List TPropRow) (cid mid tname : String)
    (d : TPropValueData) : List TPropRow :=
  table ++ [{ collection_id := cid, mfeature_id := mid, tproperties_name := tname,
              pvalue_float_period := if d.isFloat then some (spanOfTimestamps d.datetimes) else none,
              pvalue_text_period := if d.isFloat then none else some (spanOfTimestamps d.datetimes) }]

/-- The `create` action of `manage_collection_item_tProperty_value` after
body parsing: gate on `checkIfTemporalPropertyCanPost` with the single
submitted entry and the targeted property name; on success insert and answer
201, otherwise answer 400 leaving the store unchanged. -/
def manage_collection_item_tProperty_value_create (table : List TPropRow)
    (cid mid tname : String) (d : TPropValueData) : List TPropRow × Nat :=
  if checkIfTemporalPropertyCanPost table cid mid
      [{ datetimes := some d.datetimes, otherKeys := ["values", "interpolation"] }]
      (some tname) then
    (postTemporalValue table cid mid tname d, 201)
  else (table, 400)

/-! ### Pagination counters (`process_data.py`) -/

/-- `LIMIT limit OFFSET offset` on the list of selected rows. -/
def sqlLimitOffset {α : Type} (limit offset : Nat) (rows : List α) : List α :=
  (rows.drop offset).take limit

/-- `getTemporalGeometries`: run the selection, count it for
`numberMatched`, re-run it paged and count that for `numberReturned`. -/
def getTemporalGeometries {α : Type} (tgeometryTable : List α)
    (whereClause : α → Bool) (limit offset : Nat) : List α × Nat × Nat :=
  let rows := tgeometryTable.filter whereClause
  let numberMatched := rows.length
  let paged := sqlLimitOffset limit offset rows
  (paged, numberMatched, paged.length)

/-- `getFeatures`: same counting discipline; when `subTrajectory` is set a
second query (abstracted to `subTrajRows`) replaces the returned rows, with
the two counters untouched. -/
def getFeatures {α : Type} (mfeatureTable : List α) (whereClause : α → Bool)
    (limit offset : Nat) (subTrajectory : Bool) (subTrajRows : List α) :
    List α × Nat × Nat :=
  let rows := mfeatureTable.filter whereClause
  let numberMatched := rows.length
  let paged := sqlLimitOffset limit offset rows
  let numberReturned := paged.length
  let outRows := if subTrajectory then subTrajRows else paged
  (outRows, numberMatched, numberReturned)

/-! ### Response links (`pygeoapi/api.py`) -/

/-- One entry of the `links` array. -/
structure Link where
  href : String
  rel : String
  type : String
deriving DecidableEq, Repr

/-- `APIRequest.get_linkrel`: `self` when the argument format equals the
request format, or is `json` while no request format was negotiated;
otherwise `alternate`. -/
def get_linkrel (requestFormat : Option String) (format_ : String) : String :=
  if requestFormat = some format_
      ∨ (format_ = "json" ∧ (requestFormat = none ∨ requestFormat = some "")) then
    "self"
  else "alternate"

/-- The `serialized_query_params` loop: every request parameter except `f`
and `offset`, percent-quoted, appended as `&k=v`. -/
def serializeQueryParams (quoteKey quoteVal : String → String)
    (params : List (String × String)) : String :=
  params.foldl
    (fun acc kv =>
      if kv.1 == "f" || kv.1 == "offset" then acc
      else acc ++ "&" ++ quoteKey kv.1 ++ "=" ++ quoteVal kv.2)
    ""

/-- The links block of the list controllers: one link at the request offset
(rel from `get_linkrel`), plus a `next` link at `offset + limit` when the
number of items placed in the response equals `limit`. -/
def buildItemsLinks (requestFormat : Option String)
    (quoteKey quoteVal : String → String) (uri : String)
    (params : List (String × String)) (offset limit nItems : Nat) : List Link :=
  let qp := serializeQueryParams quoteKey quoteVal params
  let links := [{ href := uri ++ "?offset=" ++ toString offset ++ qp,
                  rel := get_linkrel requestFormat "json",
                  type := "application/json" : Link }]
  if nItems = limit then
    links ++ [{ href := uri ++ "?offset=" ++ toString (offset + limit) ++ qp,
                rel := "next", type := "application/geo+json" }]
  else links

/-! ### Witness gadgets -/

/-- A table-driven stand-in for `dateutil.parser.parse`, used only to
instantiate the parser oracle in witnesses. -/
def toyParse : DateParser := fun s _ =>
  if s = "2020-01-01" then some ⟨2020, 1, 1, 0, 0, 0, 0, none⟩
  else if s = "2021-06-15" then some ⟨2021, 6, 15, 12, 30, 0, 0, none⟩
  else if s = "2022-01-01" then some ⟨2022, 1, 1, 0, 0, 0, 0, none⟩
  else none

/-- A float parser over the carrier `Int`, instantiating the bbox numeric
oracle in witnesses and counterexamples; it accepts `nan` as `float` does. -/
def toyParseFloat : String → Option (PyFloat Int) := fun s =>
  if s = "nan" then some .nan
  else if s = "0" then some (.num 0)
  else if s = "1" then some (.num 1)
  else if s = "10" then some (.num 10)
  else if s = "-1" then some (.num (-1))
  else none

deriving instance DecidableEq for Except

/-! ### Helper lemmas -/

theorem str_append_nil (s : String) : s ++ "" = s := by
  cases s with
  | mk data =>
    show String.mk (data ++ []) = String.mk data
    rw [List.append_nil]

theorem str_append_assoc (a b c : String) : a ++ b ++ c = a ++ (b ++ c) := by
  cases a; cases b; cases c
  show String.mk _ = String.mk _
  rw [List.append_assoc]

theorem pyFmt_stampUTC (d : PyDateTime) : pyFmt (stampUTC d) = pyFmt d := by
  unfold stampUTC
  split <;> rfl

theorem splitCharList_ne_nil (c : Char) (l : List Char) : splitCharList c l ≠ [] := by
  induction l with
  | nil => simp [splitCharList]
  | cons x xs ih =>
    simp only [splitCharList]
    split
    · simp
    · split
      · simp
      · simp

theorem splitOnChar_ne_nil (c : Char) (s : String) : splitOnChar c s ≠ [] := by
  unfold splitOnChar
  simp [splitCharList_ne_nil]

theorem optMapM_length {α : Type} (f : String → Option α) :
    ∀ (l : List String) (xs : List α), optMapM f l = some xs → xs.length = l.length := by
  intro l
  induction l with
  | nil =>
    intro xs h
    simp [optMapM] at h
    subst h
    rfl
  | cons x rest ih =>
    intro xs h
    simp only [optMapM] at h
    cases hfx : f x with
    | none => rw [hfx] at h; simp at h
    | some y =>
      rw [hfx] at h
      cases hrec : optMapM f rest with
      | none => rw [hrec] at h; simp at h
      | some ys =>
        rw [hrec] at h
        simp at h
        subst h
        simp [ih ys hrec]

/-! ### Claim C7 -/

/-- Claim C7: for every list query of `getFeatures` / `getTemporalGeometries`,
`numberMatched` counts the selected rows before paging, `numberReturned`
counts them after `LIMIT limit OFFSET offset`, and therefore
`numberReturned ≤ limit` and `numberReturned ≤ numberMatched`. -/
theorem pagination_counts {α : Type} (mfeatureTable tgeometryTable : List α)
    (p q : α → Bool) (limit offset : Nat) (subTrajectory : Bool) (subTrajRows : List α) :
    ((getFeatures mfeatureTable p limit offset subTrajectory subTrajRows).2.1
        = (mfeatureTable.filter p).length
      ∧ (getFeatures mfeatureTable p limit offset subTrajectory subTrajRows).2.2
        = (sqlLimitOffset limit offset (mfeatureTable.filter p)).length
      ∧ (getFeatures mfeatureTable p limit offset subTrajectory subTrajRows).2.2 ≤ limit
      ∧ (getFeatures mfeatureTable p limit offset subTrajectory subTrajRows).2.2
        ≤ (getFeatures mfeatureTable p limit offset subTrajectory subTrajRows).2.1)
    ∧ ((getTemporalGeometries tgeometryTable q limit offset).2.1
        = (tgeometryTable.filter q).length
      ∧ (getTemporalGeometries tgeometryTable q limit offset).2.2
        = (sqlLimitOffset limit offset (tgeometryTable.filter q)).length
      ∧ (getTemporalGeometries tgeometryTable q limit offset).2.2 ≤ limit
      ∧ (getTemporalGeometries tgeometryTable q limit offset).2.2
        ≤ (getTemporalGeometries tgeometryTable q limit offset).2.1) := by
  constructor
  · refine ⟨rfl, rfl, ?_, ?_⟩ <;>
      simp only [getFeatures, sqlLimitOffset, List.length_take, List.length_drop] <;> omega
  · refine ⟨rfl, rfl, ?_, ?_⟩ <;>
      simp only [getTemporalGeometries, sqlLimitOffset, List.length_take, List.length_drop] <;> omega

/-! ### Claim C9 -/

/-- Claim C9: when no submitted entry carries a `datetimes` key,
`checkIfTemporalPropertyCanPost` answers `True` whatever the store holds —
the conflict query is never issued. -/
theorem canPost_skips_entries_without_datetimes (table : List TPropRow)
    (cid mid : String) (entries : List TPropEntry) (tname? : Option String)
    (h : ∀ e ∈ entries, e.datetimes = none) :
    checkIfTemporalPropertyCanPost table cid mid entries tname? = true := by
  induction entries with
  | nil => rfl
  | cons e rest ih =>
    have he : e.datetimes = none := h e (by simp)
    simp only [checkIfTemporalPropertyCanPost, he]
    exact ih (fun x hx => h x (List.mem_cons_of_mem _ hx))

/-- Witness for C9 at a store that does hold an overlapping row. -/
theorem canPost_skips_entries_without_datetimes_witness :
    (∀ e ∈ [({ datetimes := none, otherKeys := ["speed"] } : TPropEntry)], e.datetimes = none)
    ∧ checkIfTemporalPropertyCanPost [⟨"c", "f", "speed", some (0, 10), none⟩] "c" "f"
        [{ datetimes := none, otherKeys := ["speed"] }] (some "speed") = true :=
  ⟨by decide,
   canPost_skips_entries_without_datetimes _ _ _ _ _ (by decide)⟩

/-! ### Claim C5 -/

/-- Claim C5: in the temporal-geometry listing and the temporal-property
value controllers, a validated non-empty `leaf` combined with
`subTrajectory=true` (resp. `subTemporalValue=true`) is answered with HTTP
400 `InvalidParameterValue` before any query reaches the store. -/
theorem leaf_conflicts_with_subParam (parse : DateParser)
    (leafParam datetimeParam : Option String) (s : String)
    (hleaf : validate_leaf parse leafParam = .ok (some s)) (hs : s ≠ "") :
    get_collection_items_tGeometry_paramStage parse leafParam (some "true") datetimeParam
      = .reject 400 "InvalidParameterValue"
          "Cannot use both parameter `subTrajectory` and `leaf` at the same time"
    ∧ get_collection_items_tProperty_value_paramStage parse leafParam (some "true") datetimeParam
      = .reject 400 "InvalidParameterValue"
          "Cannot use both parameter `subTemporalValue` and `leaf` at the same time" := by
  have hne : leafNonEmpty (some s) = true := by
    simp [leafNonEmpty, bne_iff_ne]
    exact hs
  have htrue : subParamIsTrue (some "true") = true := by decide
  constructor
  · simp only [get_collection_items_tGeometry_paramStage, hleaf, hne, htrue,
      Bool.and_self, if_pos]
  · simp only [get_collection_items_tProperty_value_paramStage, hleaf, hne, htrue,
      Bool.and_self, if_pos]

/-- Witness for C5 at a concrete leaf instant. -/
theorem leaf_conflicts_with_subParam_witness :
    validate_leaf toyParse (some "2020-01-01") = .ok (some "2020-01-01 00:00:00.000000")
    ∧ get_collection_items_tGeometry_paramStage toyParse (some "2020-01-01") (some "true") none
      = .reject 400 "InvalidParameterValue"
          "Cannot use both parameter `subTrajectory` and `leaf` at the same time" :=
  ⟨by decide,
   (leaf_conflicts_with_subParam toyParse (some "2020-01-01") none
      "2020-01-01 00:00:00.000000" (by decide) (by decide)).1⟩


/-! ### Claim C2 -/

theorem bool_eq_false {b : Bool} (h : ¬(b = true)) : b = false := by
  cases b
  · rfl
  · exact absurd rfl h

theorem bboxPassesChecks_length {α : Type} [LinearOrder α] (xs : List (PyFloat α))
    (h : bboxPassesChecks xs = true) : xs.length = 4 ∨ xs.length = 6 := by
  rcases xs with _ | ⟨a, _ | ⟨b, _ | ⟨c, _ | ⟨d, _ | ⟨e, _ | ⟨f, _ | ⟨g, t⟩⟩⟩⟩⟩⟩⟩ <;>
    simp_all [bboxPassesChecks]

theorem not_pyGt_eq_pyLe {α : Type} [LinearOrder α] (x y : α) :
    (!(pyGt (PyFloat.num x) (PyFloat.num y))) = pyLe (PyFloat.num x) (PyFloat.num y) := by
  by_cases h : x ≤ y
  · have h2 : ¬(y < x) := not_lt.mpr h
    simp [pyGt, pyLe, h, h2]
  · have h2 : y < x := not_le.mp h
    simp [pyGt, pyLe, h, h2]

theorem bboxPassesChecks_eq_orderedLe {α : Type} [LinearOrder α]
    (xs : List (PyFloat α)) (h : noNan xs = true) :
    bboxPassesChecks xs = bboxOrderedLe xs := by
  rcases xs with _ | ⟨a, _ | ⟨b, _ | ⟨c, _ | ⟨d, _ | ⟨e, _ | ⟨f, _ | ⟨g, t⟩⟩⟩⟩⟩⟩⟩
  · rfl
  · rfl
  · rfl
  · rfl
  · rcases a with x0 | _ <;> rcases b with x1 | _ <;> rcases c with x2 | _ <;>
      rcases d with x3 | _ <;>
      simp_all [noNan, bboxPassesChecks, bboxOrderedLe, not_pyGt_eq_pyLe, Bool.and_comm]
  · rfl
  · rcases a with x0 | _ <;> rcases b with x1 | _ <;> rcases c with x2 | _ <;>
      rcases d with x3 | _ <;> rcases e with x4 | _ <;> rcases f with x5 | _ <;>
      simp_all [noNan, bboxPassesChecks, bboxOrderedLe, not_pyGt_eq_pyLe,
        Bool.and_comm, Bool.and_left_comm, Bool.and_assoc]
  · rfl

/-- Claim C2 (amended): `validate_bbox` returns the parsed list exactly when
the comma-separated input has 4 or 6 parts, every part parses as a float,
and none of the source's `min > max` comparisons evaluates true — which
coincides with each minimum being `≤` the matching maximum whenever no NaN
is involved, while a bbox with NaN in a compared position is accepted; in
every other case it raises `ValueError`, in particular when `minx > maxx`
(no antimeridian wrap). -/
theorem validate_bbox_spec {α : Type} [LinearOrder α]
    (parseNum : String → Option (PyFloat α)) (v : String) :
    (∀ xs : List (PyFloat α), validate_bbox parseNum (some v) = .ok xs ↔
        (optMapM parseNum (splitOnChar ',' v) = some xs ∧ bboxPassesChecks xs = true))
    ∧ ((∃ msg, validate_bbox parseNum (some v) = .error msg) ↔
        ∀ xs : List (PyFloat α), optMapM parseNum (splitOnChar ',' v) = some xs →
          bboxPassesChecks xs = false)
    ∧ (∀ xs : List (PyFloat α), noNan xs = true →
        bboxPassesChecks xs = bboxOrderedLe xs) := by
  have main : ∀ xs : List (PyFloat α), validate_bbox parseNum (some v) = .ok xs ↔
      (optMapM parseNum (splitOnChar ',' v) = some xs ∧ bboxPassesChecks xs = true) := by
    intro xs
    by_cases hlen : (splitOnChar ',' v).length ≠ 4 ∧ (splitOnChar ',' v).length ≠ 6
    · simp only [validate_bbox, if_pos hlen]
      constructor
      · intro h; exact absurd h (by simp)
      · rintro ⟨h1, h2⟩
        have := optMapM_length parseNum _ _ h1
        rcases bboxPassesChecks_length xs h2 with h4 | h6 <;> omega
    · simp only [validate_bbox, if_neg hlen]
      cases hmap : optMapM parseNum (splitOnChar ',' v) with
      | none =>
        constructor
        · intro h; exact absurd h (by simp)
        · rintro ⟨h1, _⟩; exact absurd h1 (by simp)
      | some bbox =>
        have hblen := optMapM_length parseNum _ _ hmap
        rw [Decidable.not_and_iff_or_not, Decidable.not_not, Decidable.not_not] at hlen
        rcases hlen with h4 | h6
        · rw [h4] at hblen
          rcases bbox with _ | ⟨x0, _ | ⟨x1, _ | ⟨x2, _ | ⟨x3, _ | ⟨y, t⟩⟩⟩⟩⟩ <;>
            simp only [List.length_nil, List.length_cons] at hblen <;> try omega
          simp only []
          constructor
          · intro h
            by_cases hy : pyGt x1 x3 = true
            · rw [if_pos hy] at h; exact absurd h (by simp)
            · rw [if_neg hy] at h
              by_cases hx : pyGt x0 x2 = true
              · rw [if_pos hx] at h; exact absurd h (by simp)
              · rw [if_neg hx] at h
                have hxs : [x0, x1, x2, x3] = xs := by
                  simpa using h
                subst hxs
                exact ⟨rfl, by
                  simp [bboxPassesChecks, bool_eq_false hy, bool_eq_false hx]⟩
          · rintro ⟨hsome, hord⟩
            have hxs : xs = [x0, x1, x2, x3] := by simpa using hsome.symm
            subst hxs
            simp only [bboxPassesChecks, Bool.and_eq_true, Bool.not_eq_true'] at hord
            rw [if_neg (by simp [hord.1]), if_neg (by simp [hord.2])]
        · rw [h6] at hblen
          rcases bbox with _ | ⟨x0, _ | ⟨x1, _ | ⟨x2, _ | ⟨x3, _ | ⟨x4, _ | ⟨x5, _ | ⟨y, t⟩⟩⟩⟩⟩⟩⟩ <;>
            simp only [List.length_nil, List.length_cons] at hblen <;> try omega
          simp only []
          constructor
          · intro h
            by_cases hz : pyGt x2 x5 = true
            · rw [if_pos hz] at h; exact absurd h (by simp)
            · rw [if_neg hz] at h
              by_cases hy : pyGt x1 x4 = true
              · rw [if_pos hy] at h; exact absurd h (by simp)
              · rw [if_neg hy] at h
                by_cases hx : pyGt x0 x3 = true
                · rw [if_pos hx] at h; exact absurd h (by simp)
                · rw [if_neg hx] at h
                  have hxs : [x0, x1, x2, x3, x4, x5] = xs := by simpa using h
                  subst hxs
                  exact ⟨rfl, by
                    simp [bboxPassesChecks, bool_eq_false hz, bool_eq_false hy,
                      bool_eq_false hx]⟩
          · rintro ⟨hsome, hord⟩
            have hxs : xs = [x0, x1, x2, x3, x4, x5] := by simpa using hsome.symm
            subst hxs
            simp only [bboxPassesChecks, Bool.and_eq_true, Bool.not_eq_true'] at hord
            obtain ⟨⟨hz, hy⟩, hx⟩ := hord
            rw [if_neg (by simp [hz]), if_neg (by simp [hy]), if_neg (by simp [hx])]
  refine ⟨main, ?_, fun xs h => bboxPassesChecks_eq_orderedLe xs h⟩
  cases hres : validate_bbox parseNum (some v) with
  | error msg =>
    constructor
    · intro _ xs hm
      cases hbo : bboxPassesChecks xs with
      | false => rfl
      | true =>
        have hok := (main xs).mpr ⟨hm, hbo⟩
        rw [hres] at hok
        exact absurd hok (by simp)
    · intro _; exact ⟨msg, rfl⟩
  | ok xs =>
    constructor
    · rintro ⟨msg, hmsg⟩; exact absurd hmsg (by simp)
    · intro hall
      have h := (main xs).mp hres
      have := hall xs h.1
      rw [h.2] at this
      exact absurd this (by simp)

/-- Counterexample to C2 as stated: every element of `nan,0,10,10` parses as
a float and the claimed `minx ≤ maxx` discipline fails — NaN is not `≤` 10 —
yet `validate_bbox` returns the list instead of raising, because the
source's `min > max` guards compare false on NaN. -/
theorem validate_bbox_nan_counterexample :
    validate_bbox toyParseFloat (some "nan,0,10,10")
      = .ok [.nan, .num 0, .num 10, .num 10]
    ∧ pyLe (PyFloat.nan : PyFloat Int) (.num 10) = false
    ∧ bboxOrderedLe [(PyFloat.nan : PyFloat Int), .num 0, .num 10, .num 10] = false := by
  exact ⟨by decide, by decide, by decide⟩

/-! ### Claim C6 -/

theorem contains_singleton (a b : String) : ([a].contains b) = (b == a) := by
  rcases h : b == a with _ | _ <;> simp [List.contains, List.elem, h]

theorem rowConflicts_iff (cid mid tname : String) (span : Int × Int) (r : TPropRow) :
    rowConflicts cid mid [tname] span r = true ↔
      (r.collection_id = cid ∧ r.mfeature_id = mid ∧ r.tproperties_name = tname
        ∧ (periodOverlap r.pvalue_float_period span = true
           ∨ periodOverlap r.pvalue_text_period span = true)) := by
  simp only [rowConflicts, contains_singleton, Bool.and_eq_true, Bool.or_eq_true,
    beq_iff_eq]
  tauto

theorem canPost_single_entry (table : List TPropRow) (cid mid tname : String)
    (ds : List Int) (keys : List String) :
    checkIfTemporalPropertyCanPost table cid mid
        [{ datetimes := some ds, otherKeys := keys }] (some tname)
      = !(table.any (rowConflicts cid mid [tname] (spanOfTimestamps ds))) := by
  simp only [checkIfTemporalPropertyCanPost]
  rcases hany : table.any (rowConflicts cid mid [tname] (spanOfTimestamps ds)) with _ | _
  · have hfil : table.filter (rowConflicts cid mid [tname] (spanOfTimestamps ds)) = [] := by
      rw [List.filter_eq_nil_iff]
      intro a ha hc
      have : table.any (rowConflicts cid mid [tname] (spanOfTimestamps ds)) = true :=
        List.any_eq_true.mpr ⟨a, ha, hc⟩
      rw [hany] at this
      exact absurd this (by simp)
    simp [hfil]
  · obtain ⟨a, ha, hc⟩ := List.any_eq_true.mp hany
    have : 0 < (table.filter (rowConflicts cid mid [tname] (spanOfTimestamps ds))).length := by
      exact List.length_pos.mpr (fun hnil => by
        have := List.mem_filter.mpr ⟨ha, hc⟩
        rw [hnil] at this
        exact absurd this (by simp))
    simp [this]

/-- Claim C6 (amended): a POST of a temporal-property value sequence is
rejected with HTTP 400 and no insertion exactly when the closed span from
the least to the greatest submitted timestamp overlaps the stored period of
some existing sequence for the same `(collection, feature, property-name)`;
when no stored period overlaps that span the row is inserted and the
response is 201. -/
theorem canPost_span_overlap_spec (table : List TPropRow) (cid mid tname : String)
    (d : TPropValueData) (_hne : d.datetimes ≠ []) :
    ((∃ r ∈ table, r.collection_id = cid ∧ r.mfeature_id = mid
        ∧ r.tproperties_name = tname
        ∧ (periodOverlap r.pvalue_float_period (spanOfTimestamps d.datetimes) = true
           ∨ periodOverlap r.pvalue_text_period (spanOfTimestamps d.datetimes) = true)) →
      manage_collection_item_tProperty_value_create table cid mid tname d = (table, 400))
    ∧ ((∀ r ∈ table, r.collection_id = cid → r.mfeature_id = mid →
          r.tproperties_name = tname →
          (periodOverlap r.pvalue_float_period (spanOfTimestamps d.datetimes) = false
           ∧ periodOverlap r.pvalue_text_period (spanOfTimestamps d.datetimes) = false)) →
      manage_collection_item_tProperty_value_create table cid mid tname d
        = (postTemporalValue table cid mid tname d, 201)) := by
  constructor
  · rintro ⟨r, hr, hprop⟩
    have hc : rowConflicts cid mid [tname] (spanOfTimestamps d.datetimes) r = true :=
      (rowConflicts_iff cid mid tname _ r).mpr hprop
    have hany : table.any (rowConflicts cid mid [tname] (spanOfTimestamps d.datetimes)) = true :=
      List.any_eq_true.mpr ⟨r, hr, hc⟩
    simp only [manage_collection_item_tProperty_value_create, canPost_single_entry,
      hany, Bool.not_true, Bool.false_eq_true, if_false]
  · intro h
    have hany : table.any (rowConflicts cid mid [tname] (spanOfTimestamps d.datetimes)) = false := by
      rcases hany : table.any (rowConflicts cid mid [tname] (spanOfTimestamps d.datetimes)) with _ | _
      · rfl
      · obtain ⟨r, hr, hc⟩ := List.any_eq_true.mp hany
        obtain ⟨h1, h2, h3, h4⟩ := (rowConflicts_iff cid mid tname _ r).mp hc
        obtain ⟨hf, ht⟩ := h r hr h1 h2 h3
        rcases h4 with h4 | h4
        · rw [hf] at h4; exact absurd h4 (by simp)
        · rw [ht] at h4; exact absurd h4 (by simp)
    simp only [manage_collection_item_tProperty_value_create, canPost_single_entry,
      hany, Bool.not_false, if_true]

/-- Witness for C6 (amended), non-overlapping case: the span [1,4] misses the
stored period [10,20], the row is inserted and the answer is 201. -/
theorem canPost_span_overlap_spec_witness :
    (([1, 4] : List Int) ≠ [])
    ∧ manage_collection_item_tProperty_value_create
        [⟨"c", "f", "speed", some (10, 20), none⟩] "c" "f" "speed" ⟨[1, 4], true⟩
      = (postTemporalValue [⟨"c", "f", "speed", some (10, 20), none⟩] "c" "f" "speed"
          ⟨[1, 4], true⟩, 201) :=
  ⟨by decide,
   (canPost_span_overlap_spec [⟨"c", "f", "speed", some (10, 20), none⟩] "c" "f" "speed"
      ⟨[1, 4], true⟩ (by decide)).2 (by decide)⟩

/-- Counterexample to C6 as stated: the timestamps 1 and 4 both lie outside
the stored period [2,3] — the submitted timestamp set does not intersect it
— yet the POST is rejected with 400 and nothing is inserted, because the
query compares the span [1,4] of the set, which does overlap [2,3]. -/
theorem canPost_counterexample :
    (∀ t ∈ ([1, 4] : List Int), ¬(2 ≤ t ∧ t ≤ 3))
    ∧ manage_collection_item_tProperty_value_create
        [⟨"c", "f", "speed", some (2, 3), none⟩] "c" "f" "speed" ⟨[1, 4], true⟩
      = ([⟨"c", "f", "speed", some (2, 3), none⟩], 400) := by
  exact ⟨by decide, by decide⟩

/-! ### Claim C8 -/

theorem get_linkrel_ne_next (requestFormat : Option String) (format_ : String) :
    get_linkrel requestFormat format_ ≠ "next" := by
  unfold get_linkrel
  split <;> decide

theorem serializeQueryParams_filter (quoteKey quoteVal : String → String) :
    ∀ (params : List (String × String)) (acc : String),
      params.foldl
          (fun acc kv =>
            if kv.1 == "f" || kv.1 == "offset" then acc
            else acc ++ "&" ++ quoteKey kv.1 ++ "=" ++ quoteVal kv.2) acc
        = (params.filter (fun kv => !(kv.1 == "f" || kv.1 == "offset"))).foldl
            (fun acc kv => acc ++ "&" ++ quoteKey kv.1 ++ "=" ++ quoteVal kv.2) acc := by
  intro params
  induction params with
  | nil => intro acc; rfl
  | cons kv rest ih =>
    intro acc
    rcases h : (kv.1 == "f" || kv.1 == "offset") with _ | _
    · rw [List.foldl_cons, List.filter_cons, if_neg (by simp [h]), if_pos (by simp [h]),
        List.foldl_cons]
      exact ih _
    · rw [List.foldl_cons, List.filter_cons, if_pos h, if_neg (by simp [h])]
      exact ih acc

/-- Counterexample to C8 as stated: a successful list response negotiated
with format `html` carries no `self` link at all — the lone offset link has
rel `alternate`. -/
theorem links_self_counterexample :
    buildItemsLinks (some "html") id id "u" [] 0 10 3
      = [{ href := "u?offset=0", rel := "alternate", type := "application/json" }]
    ∧ ∀ l ∈ buildItemsLinks (some "html") id id "u" [] 0 10 3, l.rel ≠ "self" := by
  exact ⟨by decide, by decide⟩

/-- Claim C8 (amended): the links array opens with a link whose href carries
the request offset and every original query parameter except `f` and
`offset`, and whose rel is `self` exactly when the negotiated format is JSON
or unspecified (otherwise `alternate`); a `next` link — same preserved
parameters, offset advanced by `limit` — is present exactly when the number
of returned items equals `limit`. -/
theorem buildItemsLinks_spec (fmt : Option String) (qK qV : String → String)
    (uri : String) (params : List (String × String)) (offset limit nItems : Nat) :
    (∃ rest, buildItemsLinks fmt qK qV uri params offset limit nItems
        = { href := uri ++ "?offset=" ++ toString offset
              ++ serializeQueryParams qK qV params,
            rel := get_linkrel fmt "json", type := "application/json" } :: rest)
    ∧ (get_linkrel fmt "json" = "self" ↔ (fmt = some "json" ∨ fmt = none ∨ fmt = some ""))
    ∧ serializeQueryParams qK qV params
        = (params.filter (fun kv => !(kv.1 == "f" || kv.1 == "offset"))).foldl
            (fun acc kv => acc ++ "&" ++ qK kv.1 ++ "=" ++ qV kv.2) ""
    ∧ ((∃ l ∈ buildItemsLinks fmt qK qV uri params offset limit nItems, l.rel = "next")
        ↔ nItems = limit)
    ∧ (∀ l ∈ buildItemsLinks fmt qK qV uri params offset limit nItems,
        l.rel = "next" →
          l.href = uri ++ "?offset=" ++ toString (offset + limit)
            ++ serializeQueryParams qK qV params) := by
  refine ⟨?_, ?_, ?_, ?_, ?_⟩
  · by_cases h : nItems = limit <;> simp [buildItemsLinks, h]
  · unfold get_linkrel
    by_cases h : (fmt = some "json" ∨ (("json" : String) = "json" ∧ (fmt = none ∨ fmt = some "")))
    · rw [if_pos h]
      simp only [true_iff]
      tauto
    · rw [if_neg h]
      constructor
      · intro hcontra; exact absurd hcontra (by decide)
      · intro hcontra; exact absurd (by tauto) h
  · exact serializeQueryParams_filter qK qV params ""
  · constructor
    · rintro ⟨l, hl, hrel⟩
      by_cases h : nItems = limit
      · exact h
      · simp [buildItemsLinks, h] at hl
        rw [hl] at hrel
        exact absurd hrel (get_linkrel_ne_next fmt "json")
    · intro h
      have hmem : (Link.mk (uri ++ "?offset=" ++ toString (offset + limit) ++ serializeQueryParams qK qV params) "next" "application/geo+json")
          ∈ buildItemsLinks fmt qK qV uri params offset limit nItems := by
        simp [buildItemsLinks, h]
      exact ⟨_, hmem, rfl⟩
  · intro l hl hrel
    by_cases h : nItems = limit
    · simp [buildItemsLinks, h] at hl
      rcases hl with hl | hl
      · rw [hl] at hrel; exact absurd hrel (get_linkrel_ne_next fmt "json")
      · rw [hl]
    · simp [buildItemsLinks, h] at hl
      rw [hl] at hrel
      exact absurd hrel (get_linkrel_ne_next fmt "json")

/-! ### Claim C4 -/

theorem filter_takeWhile_of_endsWithSoleZ :
    ∀ l : List Char, endsWithSoleZ l = true →
      ((l.filter (fun c => c != 'Z')).takeWhile (fun c => c != '+')) ++ ['Z'] = l := by
  intro l
  induction l with
  | nil => intro h; simp [endsWithSoleZ] at h
  | cons c rest ih =>
    intro h
    cases rest with
    | nil =>
      simp only [endsWithSoleZ, beq_iff_eq] at h
      subst h
      decide
    | cons c2 rest2 =>
      simp only [endsWithSoleZ, Bool.and_eq_true] at h
      obtain ⟨⟨h1, h2⟩, h3⟩ := h
      rw [List.filter_cons, if_pos h1, List.takeWhile_cons, ]
      rw [if_pos h2]
      rw [List.cons_append, ih h3]

theorem restoreZ_removeZ (s : String) (h : endsWithSoleZ s.data = true) :
    restoreZ (removeZ s) = s := by
  unfold restoreZ removeZ
  cases s with
  | mk data =>
    show String.mk (((data.filter (fun c => c != 'Z')).takeWhile (fun c => c != '+')) ++ ['Z'])
        = String.mk data
    rw [filter_takeWhile_of_endsWithSoleZ data h]

theorem map_restoreZ_removeZ (ds : List String)
    (h : (ds.all (fun s => endsWithSoleZ s.data)) = true) :
    (ds.map removeZ).map restoreZ = ds := by
  induction ds with
  | nil => rfl
  | cons d rest ih =>
    simp only [List.all_cons, Bool.and_eq_true] at h
    simp only [List.map_cons, restoreZ_removeZ d h.1, ih h.2]

/-- Claim C4: for an external temporal geometry in canonical wire form — a
`type` key (in the wire spelling, not `MovingGeomPoint`), an optional wire
`interpolation` (not the internal spelling `Stepwise`), no internal
`interpolations` key, no `lower_inc` / `upper_inc` keys, and every timestamp
ending in a sole `Z` with no `+` offset — converting to the internal dialect
and back is the identity: the `Z` suffixes, the `Step`/`Stepwise` and
`MovingPoint`/`MovingGeomPoint` renamings, and the defaulted
`lower_inc`/`upper_inc` keys all cancel. -/
theorem tGeometry_dialect_roundtrip (tg : TGeo) (t : String)
    (hty : tg.type = some t)
    (htMG : t ≠ "MovingGeomPoint")
    (hitp : tg.interpolation ≠ some "Stepwise")
    (hitps : tg.interpolations = none)
    (hlow : tg.lower_inc = none)
    (hupp : tg.upper_inc = none)
    (hdt : ((tg.datetimes.getD []).all (fun s => endsWithSoleZ s.data)) = true) :
    convertTemporalGeometryToOldVersion (convertTemporalGeometryToNewVersion tg)
      = some tg := by
  obtain ⟨ty, itp, itps, dts, low, upp, coords⟩ := tg
  have hty' : ty = some t := hty
  have hitps' : itps = none := hitps
  have hlow' : low = none := hlow
  have hupp' : upp = none := hupp
  subst hty' hitps' hlow' hupp'
  cases itp with
  | none =>
    cases dts with
    | none =>
      by_cases ht : t = "MovingPoint" <;>
        simp [convertTemporalGeometryToNewVersion, convertTemporalGeometryToOldVersion,
          ht, htMG]
    | some ds =>
      have hmap := map_restoreZ_removeZ ds (by simpa using hdt)
      by_cases ht : t = "MovingPoint" <;>
        simp [convertTemporalGeometryToNewVersion, convertTemporalGeometryToOldVersion,
          ht, htMG, hmap]
  | some i =>
    have hi : i ≠ "Stepwise" := by
      intro hcontra
      exact hitp (by rw [hcontra])
    cases dts with
    | none =>
      by_cases hstep : i = "Step"
      · by_cases ht : t = "MovingPoint" <;>
          simp [convertTemporalGeometryToNewVersion, convertTemporalGeometryToOldVersion,
            ht, htMG, hstep]
      · by_cases ht : t = "MovingPoint" <;>
          simp [convertTemporalGeometryToNewVersion, convertTemporalGeometryToOldVersion,
            ht, htMG, hstep, hi]
    | some ds =>
      have hmap := map_restoreZ_removeZ ds (by simpa using hdt)
      by_cases hstep : i = "Step"
      · by_cases ht : t = "MovingPoint" <;>
          simp [convertTemporalGeometryToNewVersion, convertTemporalGeometryToOldVersion,
            ht, htMG, hstep, hmap]
      · by_cases ht : t = "MovingPoint" <;>
          simp [convertTemporalGeometryToNewVersion, convertTemporalGeometryToOldVersion,
            ht, htMG, hstep, hi, hmap]

/-- Witness for C4 at a concrete MovingPoint prism. -/
theorem tGeometry_dialect_roundtrip_witness :
    convertTemporalGeometryToOldVersion (convertTemporalGeometryToNewVersion
      ⟨some "MovingPoint", some "Step", none, some ["2011-07-14T22:01:01Z"], none, none, [[2, 7]]⟩)
      = some ⟨some "MovingPoint", some "Step", none, some ["2011-07-14T22:01:01Z"], none, none, [[2, 7]]⟩ :=
  tGeometry_dialect_roundtrip
    ⟨some "MovingPoint", some "Step", none, some ["2011-07-14T22:01:01Z"], none, none, [[2, 7]]⟩
    "MovingPoint" (by decide) (by decide) (by decide) (by decide) (by decide) (by decide)
    (by decide)

/-! ### Claim C3 -/

theorem leafLoop_ok (parse : DateParser) :
    ∀ (rest : List String) (prev : String) (dPrev : PyDateTime)
      (ds : List PyDateTime) (acc : String),
      parse prev unixEpoch = some dPrev →
      optMapM (fun t => parse t unixEpoch) rest = some ds →
      ((List.Chain' leafLt (dPrev :: ds) →
          leafLoop parse prev rest acc = .ok (acc ++ joinTail (ds.map pyFmt)))
        ∧ (¬ List.Chain' leafLt (dPrev :: ds) →
          leafLoop parse prev rest acc = .error "invalid leaf")) := by
  intro rest
  induction rest with
  | nil =>
    intro prev dPrev ds acc hprev hrest
    simp only [optMapM] at hrest
    have hds : ds = [] := by simpa using hrest.symm
    subst hds
    constructor
    · intro _
      simp only [leafLoop, List.map_nil, joinTail, str_append_nil]
    · intro hc
      exact absurd (List.chain'_singleton dPrev) hc
  | cons cur rest ih =>
    intro prev dPrev ds acc hprev hrest
    simp only [optMapM] at hrest
    cases hcur : parse cur unixEpoch with
    | none => rw [hcur] at hrest; simp at hrest
    | some dCur =>
      rw [hcur] at hrest
      cases hrec : optMapM (fun t => parse t unixEpoch) rest with
      | none => rw [hrec] at hrest; simp at hrest
      | some ds' =>
        rw [hrec] at hrest
        have hds : ds = dCur :: ds' := by simpa using hrest.symm
        subst hds
        have hloop : leafLoop parse prev (cur :: rest) acc
            = if (stampUTC dCur).toInstant ≤ (stampUTC dPrev).toInstant
              then .error "invalid leaf"
              else leafLoop parse cur rest (acc ++ "," ++ pyFmt (stampUTC dCur)) := by
          simp only [leafLoop, hprev, hcur]
        by_cases hle : (stampUTC dCur).toInstant ≤ (stampUTC dPrev).toInstant
        · have hnc : ¬ List.Chain' leafLt (dPrev :: dCur :: ds') := by
            intro hc
            have hlt := (List.chain'_cons.mp hc).1
            unfold leafLt at hlt
            omega
          refine ⟨fun hc => absurd hc hnc, fun _ => ?_⟩
          rw [hloop, if_pos hle]
        · have hlt : leafLt dPrev dCur := not_le.mp hle
          have hrec' := ih cur dCur ds' (acc ++ "," ++ pyFmt (stampUTC dCur)) hcur hrec
          constructor
          · intro hc
            rw [hloop, if_neg hle, hrec'.1 (List.chain'_cons.mp hc).2]
            rw [pyFmt_stampUTC]
            simp only [List.map_cons, joinTail, str_append_assoc]
          · intro hnc
            rw [hloop, if_neg hle]
            refine hrec'.2 fun hc => hnc (List.chain'_cons.mpr ⟨hlt, hc⟩)

/-- Claim C3: given that every comma-separated element of the `leaf`
parameter parses, validation succeeds exactly when the instants — stamped
UTC when naive — are strictly ascending, returning them re-rendered as a
comma-separated `YYYY-MM-DD HH:MM:SS.ffffff` list; any adjacent
non-increasing pair raises `ValueError`. -/
theorem validate_leaf_spec (parse : DateParser) (l : String) (ds : List PyDateTime)
    (hparse : optMapM (fun t => parse t unixEpoch) (splitOnChar ',' l) = some ds) :
    (List.Chain' leafLt ds →
        validate_leaf parse (some l) = .ok (some (commaJoin (ds.map pyFmt))))
    ∧ (¬ List.Chain' leafLt ds →
        validate_leaf parse (some l) = .error "invalid leaf") := by
  cases hsp : splitOnChar ',' l with
  | nil => exact absurd hsp (splitOnChar_ne_nil ',' l)
  | cons first rest =>
    rw [hsp] at hparse
    simp only [optMapM] at hparse
    cases h0 : parse first unixEpoch with
    | none => rw [h0] at hparse; simp at hparse
    | some d0 =>
      rw [h0] at hparse
      cases hrec : optMapM (fun t => parse t unixEpoch) rest with
      | none => rw [hrec] at hparse; simp at hparse
      | some ds' =>
        rw [hrec] at hparse
        have hds : ds = d0 :: ds' := by simpa using hparse.symm
        subst hds
        have main := leafLoop_ok parse rest first d0 ds' (pyFmt d0) h0 hrec
        constructor
        · intro hc
          simp only [validate_leaf, hsp, h0, main.1 hc]
          rfl
        · intro hnc
          simp only [validate_leaf, hsp, h0, main.2 hnc]

/-- Witness for C3 on two ascending instants. -/
theorem validate_leaf_spec_witness :
    validate_leaf toyParse (some "2020-01-01,2021-06-15")
      = .ok (some (commaJoin
          ([⟨2020, 1, 1, 0, 0, 0, 0, none⟩, ⟨2021, 6, 15, 12, 30, 0, 0, none⟩].map pyFmt))) :=
  (validate_leaf_spec toyParse "2020-01-01,2021-06-15"
      [⟨2020, 1, 1, 0, 0, 0, 0, none⟩, ⟨2021, 6, 15, 12, 30, 0, 0, none⟩]
      (by decide)).1 (List.chain'_pair.mpr (by decide))

/-! ### Claim C1 -/

/-- Claim C1 (amended): on a datetime parameter containing `/`, after
normalizing empty sides to `..`, a `..` begin resolves to `datetime.min`
stamped UTC (0001-01-01T00:00:00+00:00) and a `..` end resolves to
9999-01-01T00:00:00+00:00 — not `datetime.max`; a parsed side is stamped UTC
when naive; given both sides resolve, validation raises `ValueError` exactly
when begin is after end, and otherwise returns
`fmt(begin),fmt(end)` in `YYYY-MM-DD HH:MM:SS.ffffff` form. -/
theorem validate_datetime_range_spec (parse : DateParser) (s b e : String)
    (db de : PyDateTime)
    (hs : hasChar '/' s = true)
    (hsplit : splitOnChar '/' (normalizeDatetimeParam s) = [b, e])
    (hb : resolveRangeBegin parse b = some db)
    (he : resolveRangeEnd parse e = some de) :
    (validate_datetime parse (some s) = .error "datetime parameter out of range"
        ↔ de.toInstant < db.toInstant)
    ∧ (db.toInstant ≤ de.toInstant →
        validate_datetime parse (some s) = .ok (some (pyFmt db ++ "," ++ pyFmt de)))
    ∧ resolveRangeBegin parse ".." = some pyDatetimeMinUTC
    ∧ resolveRangeEnd parse ".." = some pyDatetime9999UTC
    ∧ (∀ t dt, t ≠ ".." → parse t pyDatetimeMin = some dt →
        resolveRangeBegin parse t = some (stampUTC dt))
    ∧ (∀ t dt, t ≠ ".." → parse t pyDatetimeMax = some dt →
        resolveRangeEnd parse t = some (stampUTC dt)) := by
  have hne : ¬(s = "") := by
    intro hcontra
    subst hcontra
    exact absurd hs (by decide)
  have hv : validate_datetime parse (some s)
      = if de.toInstant < db.toInstant then .error "datetime parameter out of range"
        else .ok (some (pyFmt db ++ "," ++ pyFmt de)) := by
    simp only [validate_datetime, if_neg hne, if_pos hs, hsplit, hb, he]
  refine ⟨?_, ?_, rfl, rfl, ?_, ?_⟩
  · rw [hv]
    by_cases h : de.toInstant < db.toInstant
    · simp [h]
    · simp [h]
  · intro hle
    rw [hv, if_neg (not_lt.mpr hle)]
  · intro t dt ht hp
    simp only [resolveRangeBegin, if_neg ht, hp]
    rfl
  · intro t dt ht hp
    simp only [resolveRangeEnd, if_neg ht, hp]
    rfl

/-- Witness for C1 (amended) on the range `2020-01-01/..`. -/
theorem validate_datetime_range_spec_witness :
    validate_datetime toyParse (some "2020-01-01/..")
      = .ok (some (pyFmt (stampUTC ⟨2020, 1, 1, 0, 0, 0, 0, none⟩)
          ++ "," ++ pyFmt pyDatetime9999UTC)) :=
  (validate_datetime_range_spec toyParse "2020-01-01/.." "2020-01-01" ".."
      (stampUTC ⟨2020, 1, 1, 0, 0, 0, 0, none⟩) pyDatetime9999UTC
      (by decide) (by decide) (by decide) (by decide)).2.1 (by decide)

/-- Counterexample to C1 as stated: on `../..` the code renders the
unbounded end as 9999-01-01T00:00:00, not as the maximum representable
instant `datetime.max` = 9999-12-31T23:59:59.999999. -/
theorem validate_datetime_max_counterexample :
    validate_datetime toyParse (some "../..")
        = .ok (some (pyFmt pyDatetimeMinUTC ++ "," ++ pyFmt pyDatetime9999UTC))
    ∧ pyFmt pyDatetime9999UTC = "9999-01-01 00:00:00.000000"
    ∧ pyFmt (stampUTC pyDatetimeMax) = "9999-12-31 23:59:59.999999"
    ∧ validate_datetime toyParse (some "../..")
        ≠ .ok (some (pyFmt pyDatetimeMinUTC ++ "," ++ pyFmt (stampUTC pyDatetimeMax))) := by
  exact ⟨by decide, by decide, by decide, by decide⟩

/-! ### Claim C10 -/

/-- Claim C10: on a datetime parameter without `/` that the parser accepts,
`validate_datetime` never raises: the instant is parsed with the epoch
default, stamped UTC when naive, and returned duplicated as a degenerate
`instant,instant` interval. -/
theorem validate_datetime_instant_spec (parse : DateParser) (s : String)
    (d : PyDateTime) (hs : hasChar '/' s = false) (hne : s ≠ "")
    (hp : parse s unixEpoch = some d) :
    validate_datetime parse (some s)
      = .ok (some (pyFmt (stampUTC d) ++ "," ++ pyFmt (stampUTC d))) := by
  have hs' : ¬(hasChar '/' s = true) := by simp [hs]
  simp only [validate_datetime, if_neg hne, if_neg hs', hp]

/-- Witness for C10 on a single instant. -/
theorem validate_datetime_instant_spec_witness :
    hasChar '/' "2020-01-01" = false
    ∧ validate_datetime toyParse (some "2020-01-01")
      = .ok (some (pyFmt (stampUTC ⟨2020, 1, 1, 0, 0, 0, 0, none⟩)
          ++ "," ++ pyFmt (stampUTC ⟨2020, 1, 1, 0, 0, 0, 0, none⟩))) :=
  ⟨by decide,
   validate_datetime_instant_spec toyParse "2020-01-01" ⟨2020, 1, 1, 0, 0, 0, 0, none⟩
     (by decide) (by decide) (by decide)⟩

/-! ### Closed instantiations of the hypothesis-free theorems -/

/-- Witness for C2 (amended): the iff at the concrete bbox `0,0,10,10`. -/
theorem validate_bbox_spec_witness :
    validate_bbox toyParseFloat (some "0,0,10,10")
        = .ok [.num 0, .num 0, .num 10, .num 10] ↔
      (optMapM toyParseFloat (splitOnChar ',' "0,0,10,10")
          = some [.num 0, .num 0, .num 10, .num 10]
        ∧ bboxPassesChecks [PyFloat.num (0 : Int), .num 0, .num 10, .num 10] = true) :=
  (validate_bbox_spec toyParseFloat "0,0,10,10").1 [.num 0, .num 0, .num 10, .num 10]

/-- Witness for C7: the two inequalities at a concrete three-row table with
limit 2 and offset 1. -/
theorem pagination_counts_witness :
    (getTemporalGeometries [1, 2, 3] (fun _ => true) 2 1).2.2 ≤ 2
    ∧ (getTemporalGeometries [1, 2, 3] (fun _ => true) 2 1).2.2
      ≤ (getTemporalGeometries [1, 2, 3] (fun _ => true) 2 1).2.1 :=
  ⟨(pagination_counts [] [1, 2, 3] (fun _ => true) (fun _ => true) 2 1 false []).2.2.2.1,
   (pagination_counts [] [1, 2, 3] (fun _ => true) (fun _ => true) 2 1 false []).2.2.2.2⟩

/-- Witness for C8 (amended): the `next` link appears exactly at a full page. -/
theorem buildItemsLinks_spec_witness :
    (∃ l ∈ buildItemsLinks none id id "u" [("limit", "2")] 4 2 2, l.rel = "next") ↔ 2 = 2 :=
  (buildItemsLinks_spec none id id "u" [("limit", "2")] 4 2 2).2.2.2.1
